import Mathlib

/-
Verification development for the pakhuis document store
(src/pakhuis/database.py, database_init.py, webservice.py, sync.py).

The embedding models the PAKHUIS, BIN_CONFIG, SEARCH_KEYS and SEARCH_VALUES
tables as lists, in rowid (insertion) order.  Timestamps are modelled as the
ISO text SQLite actually stores and compares (the DTTM column has text
affinity for every value the program writes; the sqlite adapter turns
datetime objects into "YYYY-MM-DD HH:MM:SS" strings, whose lexicographic
order is the chronological order).  JSON content is modelled by the
inductive Jval; a CONTENT column holding json.dumps of a value v is
modelled as some v, and the empty string written by del_item (not valid
JSON) is modelled as none.  Python exceptions are modelled by PyErr.
-/

namespace Pakhuis

/-- JSON values (numbers restricted to integers; no claim depends on
non-integral numbers). -/
inductive Jval where
  | null
  | bool (b : Bool)
  | num (n : Int)
  | str (s : String)
  | arr (elems : List Jval)
  | obj (fields : List (String × Jval))
deriving Repr

/-- Python dict assignment d[k] = v on an insertion-ordered dict: an existing
key keeps its position, a new key is appended at the end. -/
def objSet : List (String × Jval) → String → Jval → List (String × Jval)
  | [], k, v => [(k, v)]
  | (k0, v0) :: rest, k, v =>
      if k0 = k then (k, v) :: rest else (k0, v0) :: objSet rest k v

/-- Python exceptions that the modelled code can raise. -/
inductive PyErr where
  | jsonDecodeError
  | typeError
  | keyError (k : String)
  | indexError
  | valueError
  | attributeError
  | pointerError
  | sqlProgrammingError
deriving DecidableEq, Repr

/-- One row of the PAKHUIS table.  STATUS defaults to the string A when an
INSERT does not name the column (database_init.py line 36, the double-quoted
"A" is a string literal by the SQLite double-quote fallback). -/
structure Row where
  bin : String
  id : String
  dttm : String
  status : String
  content : Option Jval
deriving Repr

/-- One row of the SEARCH_KEYS table. -/
structure SKey where
  bin : String
  key : String
  path : String
  type : String
deriving DecidableEq, Repr

/-- One row of the SEARCH_VALUES table.  The VALUE column holds json.dumps
of the inserted Python value; it is modelled by the value itself. -/
structure SVal where
  bin : String
  key : String
  id : String
  value : Jval
deriving Repr

/-- The database state: the four tables, each in rowid order.  BIN_CONFIG is
an association list bin -> include_id (the Y/N column read back as Bool). -/
structure Db where
  rows : List Row
  binConfig : List (String × Bool)
  searchKeys : List SKey
  searchValues : List SVal
deriving Repr

def emptyDb : Db := { rows := [], binConfig := [], searchKeys := [], searchValues := [] }

/-- get_bin_config: the stored INCLUDE_ID flag, defaulting to N (false) when
the bin has no BIN_CONFIG row.  The in-process cache is coherent with the
table, so it is modelled as a direct read. -/
def includeId (db : Db) (bin : String) : Bool :=
  (db.binConfig.lookup bin).getD false

/-- Lexicographic comparison of character lists; with UTF-8, codepoint order
coincides with the byte order SQLite uses for text. -/
def charsLt : List Char → List Char → Bool
  | [], [] => false
  | [], _ :: _ => true
  | _ :: _, [] => false
  | a :: as, b :: bs => a < b || (a == b && charsLt as bs)

/-- SQLite text comparison (also Python str comparison on these values). -/
def strLt (a b : String) : Bool := charsLt a.data b.data

/-- SQLite max() over two text values. -/
def maxStr (a b : String) : String := if strLt a b then b else a

/-- SQLite max() aggregate over a list of text values (NULL when empty). -/
def maxD : List String → Option String
  | [] => none
  | d :: ds =>
      some (match maxD ds with
            | none => d
            | some m => maxStr d m)

/-- Predicate for rows of the (bin, id) pair. -/
def rowIsFor (bin id : String) (r : Row) : Bool :=
  r.bin == bin && r.id == id

/-- DTTM values of all rows for the pair. -/
def pairDttms (db : Db) (bin id : String) : List String :=
  (db.rows.filter (rowIsFor bin id)).map Row.dttm

/-- The correlated subquery select max(DTTM) from PAKHUIS where BIN = ? and ID = ?. -/
def maxDttm (db : Db) (bin id : String) : Option String :=
  maxD (pairDttms db bin id)

/-- The get_item query: first row (in rowid order, as fetchone returns it)
with the pair's maximum DTTM and STATUS A. -/
def currentActiveRow (db : Db) (bin id : String) : Option Row :=
  db.rows.find? (fun r =>
    rowIsFor bin id r && (maxDttm db bin id == some r.dttm) && r.status == "A")

/-- PakhuisDatabase._get_content: json.loads of the CONTENT column (the empty
string written by del_item fails to parse), then, when include_id is set,
content["id"] = row["id"].  rowId is the ID column as selected by the
calling query: the get_item and get_item_history statements select no ID
column, so sqlite3.Row raises IndexError for row["id"] there (the right-hand
side is evaluated before the item assignment, so this happens for every
content value); when the query did select the ID (get_bin_items,
search_items), the assignment itself raises TypeError unless the decoded
value is a dict. -/
def get_content (db : Db) (bin : String) (rowId : Option String)
    (content : Option Jval) : Except PyErr Jval :=
  match content with
  | none => .error .jsonDecodeError
  | some v =>
      if includeId db bin then
        match rowId with
        | none => .error .indexError
        | some id =>
            match v with
            | .obj fs => .ok (.obj (objSet fs "id" (.str id)))
            | _ => .error .typeError
      else .ok v

/-- PakhuisDatabase.get_item: the current-and-active row's content, or
NOTFOUND (modelled as ok none) when the query returns no row.  The query
selects only P.CONTENT, so _get_content gets no ID column. -/
def get_item (db : Db) (bin id : String) : Except PyErr (Option Jval) :=
  match currentActiveRow db bin id with
  | some r => (get_content db bin none r.content).map some
  | none => .ok none

/-- One element of the list built by get_item_history. -/
structure HistEntry where
  dttm : String
  active : Bool
  content : Jval
deriving Repr

/-- Insert a row into a DTTM-sorted list, before the first strictly larger
element (stable with respect to the original order on equal keys). -/
def insertByDttm (r : Row) : List Row → List Row
  | [] => [r]
  | x :: xs => if strLt x.dttm r.dttm then x :: insertByDttm r xs else r :: x :: xs

/-- Stable ascending sort on DTTM, modelling the order by 1 of the
get_item_history query (ties left in rowid order). -/
def sortByDttm : List Row → List Row
  | [] => []
  | r :: rs => insertByDttm r (sortByDttm rs)

/-- A Python result-building loop: apply f to each element, appending the
results; the first exception aborts the loop and propagates. -/
def mapE {α β : Type} (f : α → Except PyErr β) : List α → Except PyErr (List β)
  | [] => .ok []
  | x :: xs =>
      match f x with
      | .error e => .error e
      | .ok b =>
          match mapE f xs with
          | .error e => .error e
          | .ok bs => .ok (b :: bs)

/-- PakhuisDatabase.get_item_history: all rows of the pair in DTTM order,
each decoded through _get_content; the empty list becomes NOTFOUND
(modelled as ok none).  The query selects DTTM, STATUS and CONTENT only, so
_get_content again gets no ID column. -/
def get_item_history (db : Db) (bin id : String) :
    Except PyErr (Option (List HistEntry)) :=
  match mapE (fun r =>
      (get_content db bin none r.content).map (fun c =>
        { dttm := r.dttm, active := r.status == "A", content := c }))
      (sortByDttm (db.rows.filter (rowIsFor bin id))) with
  | .error e => .error e
  | .ok entries => if entries.isEmpty then .ok none else .ok (some entries)

/-- Replace every non-overlapping occurrence of a two-character pattern by
one character, scanning left to right (str.replace for these patterns). -/
def replace2 (p1 p2 r : Char) : List Char → List Char
  | [] => []
  | [c] => [c]
  | c1 :: c2 :: cs =>
      if c1 == p1 && c2 == p2 then r :: replace2 p1 p2 r cs
      else c1 :: replace2 p1 p2 r (c2 :: cs)

/-- JSON-pointer reference-token unescaping (RFC 6901): first ~1 becomes a
slash, then ~0 becomes a tilde. -/
def unescapeTok (cs : List Char) : List Char :=
  replace2 (Char.ofNat 126) (Char.ofNat 48) (Char.ofNat 126)
    (replace2 (Char.ofNat 126) (Char.ofNat 49) (Char.ofNat 47) cs)

/-- str.split on the slash character. -/
def splitOnSlash : List Char → List (List Char)
  | [] => [[]]
  | c :: rest =>
      if c == Char.ofNat 47 then [] :: splitOnSlash rest
      else
        match splitOnSlash rest with
        | [] => [[c]]
        | g :: gs => (c :: g) :: gs

/-- The jsonpointer 2.x invalid-escape scan: a tilde not followed by 0 or 1
(a trailing tilde included) raises JsonPointerException at pointer
construction, which the resolve_pointer default does not cover. -/
def hasInvalidTilde : List Char → Bool
  | [] => false
  | [c] => c == Char.ofNat 126
  | c1 :: c2 :: cs =>
      (c1 == Char.ofNat 126 && !(c2 == Char.ofNat 48 || c2 == Char.ofNat 49))
        || hasInvalidTilde (c2 :: cs)

/-- Parse a JSON pointer as the jsonpointer library does: first the
invalid-escape validation, then the empty string is the whole document, and
any other pointer must start with a slash; both failures raise uncaught of
the default. -/
def parsePointer (path : String) : Except PyErr (List String) :=
  if hasInvalidTilde path.data then .error .pointerError
  else
    match path.data with
    | [] => .ok []
    | c :: _ =>
        if c == Char.ofNat 47 then
          .ok (((splitOnSlash path.data).tail).map (fun cs => String.mk (unescapeTok cs)))
        else .error .pointerError

/-- The library's RE_ARRAY_INDEX used with re.match, pattern 0|[1-9][0-9]*$:
the first alternative has no end anchor, so any token starting with 0
matches; otherwise a nonzero digit followed by digits up to the end. -/
def reMatch (s : String) : Bool :=
  match s.data with
  | [] => false
  | c :: cs =>
      c == Char.ofNat 48
        || ((c.isDigit && c != Char.ofNat 48) && cs.all Char.isDigit)

/-- int() on a digit token (leading zeros allowed: int("01") is 1). -/
def digitsToNat (cs : List Char) : Nat :=
  cs.foldl (fun n c => n * 10 + (c.toNat - 48)) 0

/-- What one jsonpointer walk step produces. -/
inductive WalkRes where
  | absent           -- JsonPointerException, swallowed by the resolve default
  | endOfList        -- the EndOfList sentinel for a - token over a sequence
  | value (v : Jval)
deriving Repr

/-- One jsonpointer 2.x walk step.  Dicts are looked up by the token (absent
key swallowed as unresolvable).  Sequences -- JSON arrays, and also Python
strings, which are Sequence too -- turn the - token into the EndOfList
sentinel, validate the token against RE_ARRAY_INDEX (failure swallowed), and
int() it: a 0-prefixed token with non-digits makes int() raise an uncaught
ValueError; an out-of-range index is swallowed.  Any other value is walked
with getattr, whose AttributeError is swallowed as unresolvable. -/
def walkStep (doc : Jval) (t : String) : Except PyErr WalkRes :=
  match doc with
  | .obj fs =>
      match fs.lookup t with
      | some v => .ok (.value v)
      | none => .ok .absent
  | .arr xs =>
      if t == "-" then .ok .endOfList
      else if !(reMatch t) then .ok .absent
      else if t.data.all Char.isDigit then
        match xs.get? (digitsToNat t.data) with
        | some v => .ok (.value v)
        | none => .ok .absent
      else .error .valueError
  | .str s =>
      if t == "-" then .ok .endOfList
      else if !(reMatch t) then .ok .absent
      else if t.data.all Char.isDigit then
        match (s.data.map (fun ch => Jval.str ch.toString)).get? (digitsToNat t.data) with
        | some v => .ok (.value v)
        | none => .ok .absent
      else .error .valueError
  | _ => .ok .absent

/-- jsonpointer resolve over the parsed tokens: the first swallowed
exception aborts the loop and the default applies; walking the EndOfList
sentinel one step further is a getattr on it, swallowed the same way. -/
def resolveLoop : Jval → List String → Except PyErr WalkRes
  | doc, [] => .ok (.value doc)
  | doc, t :: ts =>
      match walkStep doc t with
      | .error e => .error e
      | .ok .absent => .ok .absent
      | .ok .endOfList => if ts.isEmpty then .ok .endOfList else .ok .absent
      | .ok (.value v) => resolveLoop v ts

/-- The Python value resolve_pointer(content, path, default=None) hands back
to the caller. -/
inductive PyResolved where
  | pynone            -- the default for an unresolvable path, or JSON null
  | pyEndOfList       -- the EndOfList sentinel
  | pyval (v : Jval)  -- a non-null JSON value
deriving Repr

/-- resolve_pointer with default=None as seen from the caller: pynone covers
both the unresolvable default and a resolved JSON null (Python cannot tell
them apart); a trailing - over a sequence hands back the EndOfList
sentinel. -/
def resolveToPy (c : Jval) (path : String) : Except PyErr PyResolved :=
  match parsePointer path with
  | .error e => .error e
  | .ok toks =>
      match resolveLoop c toks with
      | .error e => .error e
      | .ok .absent => .ok .pynone
      | .ok .endOfList => .ok .pyEndOfList
      | .ok (.value .null) => .ok .pynone
      | .ok (.value v) => .ok (.pyval v)

/-- Python iteration over a JSON value: a list yields its elements, a str its
characters, a dict its keys; numbers and booleans are not iterable. -/
def pyIter : Jval → Option (List Jval)
  | .arr xs => some xs
  | .str s => some (s.data.map (fun ch => .str ch.toString))
  | .obj fs => some (fs.map (fun f => .str f.1))
  | _ => none

/-- Append one SEARCH_VALUES row. -/
def insSV (db : Db) (bin key id : String) (v : Jval) : Db :=
  { db with searchValues :=
      db.searchValues ++ [{ bin := bin, key := key, id := id, value := v }] }

/-- Append one SEARCH_VALUES row per element. -/
def insSVs (db : Db) (bin key id : String) (xs : List Jval) : Db :=
  xs.foldl (fun d it => insSV d bin key id it) db

/-- SEARCH_KEYS rows of a bin, as _get_index_keys returns them. -/
def keysFor (db : Db) (bin : String) : List SKey :=
  db.searchKeys.filter (fun k => k.bin == bin)

/-- Delete the SEARCH_VALUES rows of one (bin, id). -/
def clearSV (db : Db) (bin id : String) : Db :=
  { db with searchValues :=
      db.searchValues.filter (fun sv => !(sv.bin == bin && sv.id == id)) }

/-- The body of the key loop in _set_index_item.  For an in_list key the
resolved Python value is iterated directly, so the None produced by an
absent (or null-valued) path raises TypeError, as does the non-iterable
EndOfList sentinel; for any other key json.dumps of the value is inserted
once (null for None), except that dumps of the EndOfList sentinel raises
TypeError (not JSON serializable). -/
def index_one_key (db : Db) (bin id : String) (c : Jval) (k : SKey) :
    Except PyErr Db :=
  if k.type == "in_list" then
    match resolveToPy c k.path with
    | .error e => .error e
    | .ok .pynone => .error .typeError
    | .ok .pyEndOfList => .error .typeError
    | .ok (.pyval v) =>
        match pyIter v with
        | none => .error .typeError
        | some items => .ok (insSVs db bin k.key id items)
  else
    match resolveToPy c k.path with
    | .error e => .error e
    | .ok .pynone => .ok (insSV db bin k.key id .null)
    | .ok .pyEndOfList => .error .typeError
    | .ok (.pyval v) => .ok (insSV db bin k.key id v)

/-- PakhuisDatabase._set_index_item: delete the pair's index rows, stop when
the content is None (a delete), otherwise insert values for every key of the
bin. -/
def set_index_item (db : Db) (bin id : String) (content : Option Jval) :
    Except PyErr Db :=
  let db1 := clearSV db bin id
  match content with
  | none => .ok db1
  | some c => (keysFor db1 bin).foldlM (fun d k => index_one_key d bin id c k) db1

/-- PakhuisDatabase.set_item: insert a PAKHUIS row (STATUS takes the column
default A) and re-index within the same transaction; an exception during
indexing rolls the insert back, which the error result models. -/
def set_item (db : Db) (bin id : String) (content : Jval)
    (dttm : Option String) (now : String) : Except PyErr Db :=
  let d := dttm.getD now
  let row : Row := { bin := bin, id := id, dttm := d, status := "A", content := some content }
  set_index_item { db with rows := db.rows ++ [row] } bin id (some content)

/-- PakhuisDatabase.del_item: reuses the set_item INSERT, which names only
BIN, ID, DTTM and CONTENT, so STATUS again takes the column default A, and
CONTENT is the empty string (content none); then the pair's index rows are
dropped (content None returns early, no error possible). -/
def del_item (db : Db) (bin id : String) (dttm : Option String) (now : String) : Db :=
  let d := dttm.getD now
  let row : Row := { bin := bin, id := id, dttm := d, status := "A", content := none }
  clearSV { db with rows := db.rows ++ [row] } bin id

/-- A put or soft-delete issued against one (bin, id), with its explicit
timestamp. -/
inductive StoreOp where
  | put (content : Jval) (dttm : String)
  | softDelete (dttm : String)

/-- Timestamp of an operation. -/
def opDttm : StoreOp → String
  | .put _ d => d
  | .softDelete d => d

/-- Run one operation through the database layer. -/
def applyOp (bin id now : String) (db : Db) : StoreOp → Except PyErr Db
  | .put c d => set_item db bin id c (some d) now
  | .softDelete d => .ok (del_item db bin id (some d) now)

/-- Run a sequence of operations through the database layer. -/
def applyOps (bin id now : String) (db : Db) (ops : List StoreOp) :
    Except PyErr Db :=
  ops.foldlM (applyOp bin id now) db

/-- Insert a row into an ID-sorted list (stable). -/
def insertById (r : Row) : List Row → List Row
  | [] => [r]
  | x :: xs => if strLt x.id r.id then x :: insertById r xs else r :: x :: xs

/-- Stable ascending sort on ID, modelling the order by 1 of the bin-item
queries. -/
def sortById : List Row → List Row
  | [] => []
  | r :: rs => insertById r (sortById rs)

/-- Rows returned by the get_bin_items query: rows of the bin whose DTTM is
the pair maximum and whose STATUS is A, in ID order. -/
def binRows (db : Db) (bin : String) : List Row :=
  sortById (db.rows.filter (fun r =>
    r.bin == bin && (maxDttm db bin r.id == some r.dttm) && r.status == "A"))

/-- Build the id -> content dict a row loop produces (later rows overwrite
earlier ones with the same id). -/
def collectItems (pairs : List (String × Jval)) : List (String × Jval) :=
  pairs.foldl (fun acc p => objSet acc p.1 p.2) []

/-- PakhuisDatabase.get_bin_items: current active content per id, decoded
through _get_content (whose exceptions propagate); this query selects P.ID,
so the id merge can happen. -/
def get_bin_items (db : Db) (bin : String) : Except PyErr (List (String × Jval)) :=
  match mapE (fun r => (get_content db bin (some r.id) r.content).map (fun c => (r.id, c)))
      (binRows db bin) with
  | .error e => .error e
  | .ok pairs => .ok (collectItems pairs)

/-- Rows returned by the search_items query for a bin: the current active
rows that satisfy the compiled criteria.  The predicate w stands for the
engine's evaluation of those criteria against SEARCH_VALUES; the claims
settled here do not depend on its shape. -/
def search_rows (db : Db) (bin : String) (w : Row → Bool) : List Row :=
  sortById (db.rows.filter (fun r =>
    r.bin == bin && (maxDttm db bin r.id == some r.dttm) && r.status == "A" && w r))

/-- PakhuisDatabase.search_items after the query has been compiled and
executed: each returned row's content is decoded through _get_content; this
query also selects P.ID. -/
def search_items (db : Db) (bin : String) (w : Row → Bool) :
    Except PyErr (List (String × Jval)) :=
  match mapE (fun r => (get_content db bin (some r.id) r.content).map (fun c => (r.id, c)))
      (search_rows db bin w) with
  | .error e => .error e
  | .ok pairs => .ok (collectItems pairs)

/-- The cleanup SQL text, verbatim from PakhuisDatabase._queries; note the
single placeholder for the DTTM cutoff. -/
def cleanupQuery : String :=
  "delete from PAKHUIS where 1=1 and DTTM < ? and (STATUS = \"I\" or exists (select 1 from PAKHUIS P where P.BIN = PAKHUIS.BIN and P.ID = PAKHUIS.ID and P.DTTM > PAKHUIS.DTTM))"

/-- Number of parameter placeholders in an SQL text. -/
def countPlaceholders (s : String) : Nat :=
  (s.data.filter (fun ch => ch == Char.ofNat 63)).length

/-- Replace every occurrence of a three-character pattern, scanning left to
right (str.replace for the 1=1 scope marker). -/
def replace3 (p1 p2 p3 : Char) (rep : List Char) : List Char → List Char
  | c1 :: c2 :: c3 :: cs =>
      if c1 == p1 && c2 == p2 && c3 == p3 then rep ++ replace3 p1 p2 p3 rep cs
      else c1 :: replace3 p1 p2 p3 rep (c2 :: c3 :: cs)
  | cs => cs

/-- q.replace("1=1", rep). -/
def replaceScope (s rep : String) : String :=
  String.mk (replace3 (Char.ofNat 49) (Char.ofNat 61) (Char.ofNat 49) rep.data s.data)

/-- A row the cleanup WHERE clause (with the cutoff bound) would delete:
older than the cutoff and either inactive or superseded by a newer row of the
same pair. -/
def cleanupVictim (db : Db) (dt : String) (r : Row) : Bool :=
  strLt r.dttm dt &&
    (r.status == "I" ||
      db.rows.any (fun p => p.bin == r.bin && p.id == r.id && strLt r.dttm p.dttm))

/-- PakhuisDatabase.cleanup.  The method builds the statement (substituting
the bin scope for 1=1 when a bin is given) but binds only the bin parameter:
the dt argument is used in the log line and never supplied to execute, so
sqlite3 rejects the statement (parameter-count mismatch; the bin-scoped
variant would additionally fail to prepare, since the outer DELETE has no
alias P).  The then-branch records what a correctly bound statement would
have removed, with the rowcount the method would return. -/
def cleanup (db : Db) (bin : String) (dt : String) : Except PyErr (Db × Nat) :=
  let q := if bin == "" then cleanupQuery else replaceScope cleanupQuery "P.BIN = ?"
  let params : List String := if bin == "" then [] else [bin]
  if countPlaceholders q = params.length then
    let inScope := fun (r : Row) => bin == "" || r.bin == bin
    let gone := db.rows.filter (fun r => inScope r && cleanupVictim db dt r)
    .ok ({ db with rows := db.rows.filter (fun r => !(inScope r && cleanupVictim db dt r)) },
         gone.length)
  else .error .sqlProgrammingError

/-- PakhuisService.doc, PUT/POST branch.  The handler reads the dttm query
parameter with default "", parses it only when non-empty (modelled as the
already normalized ISO text), and then always passes the resulting string --
possibly "" -- to set_item, so set_item's is-None check never substitutes the
current time. -/
def doc_put (db : Db) (bin id : String) (content : Jval)
    (dttmParam : Option String) (now : String) : Except PyErr Db :=
  let d := match dttmParam with
           | some s => s
           | none => ""
  set_item db bin id content (some d) now

mutual
/-- A search request body, as the parsed JSON the webservice hands to
search_items.  node is a JSON object, leaf any other JSON value (a faithful
encoding never puts an object inside leaf). -/
inductive Stree where
  | leaf (v : Jval)
  | node (fields : SFields)
/-- The field list of a search dict, in JSON order. -/
inductive SFields where
  | nil
  | cons (k : String) (t : Stree) (tl : SFields)
end

/-- Emptiness test for the search dict (the not srch check of the handler). -/
def SFields.isEmpty : SFields → Bool
  | .nil => true
  | .cons _ _ _ => false

/-- The key -> operator mapping SearchWhere.set_keys builds for a bin: the
dict of SEARCH_KEYS rows (a later duplicate key overwrites an earlier one)
updated with the base operators, so and/or always win. -/
def opsFor (db : Db) (bin : String) : List (String × String) :=
  (keysFor db bin).map (fun k => (k.key, k.type))

/-- Lookup in that mapping. -/
def opsLookup (ops : List (String × String)) (k : String) : Option String :=
  if k == "and" then some "and"
  else if k == "or" then some "or"
  else ((ops.reverse).find? (fun p => p.1 == k)).map (fun p => p.2)

mutual
/-- A key occurrence the compiler actually reaches inside a subtree value:
only and/or entries whose value is a mapping are descended into. -/
def Stree.hasProcessedKey (ops : List (String × String)) (k : String) : Stree → Prop
  | .leaf _ => False
  | .node fs => SFields.hasProcessedKey ops k fs
/-- A key occurrence the aggregate loop actually reaches: a field's own key,
a key reached under an and/or mapping value, or one further down the list. -/
def SFields.hasProcessedKey (ops : List (String × String)) (k : String) : SFields → Prop
  | .nil => False
  | .cons k0 v0 tl =>
      k0 = k
      ∨ ((opsLookup ops k0 = some "and" ∨ opsLookup ops k0 = some "or")
          ∧ Stree.hasProcessedKey ops k v0)
      ∨ SFields.hasProcessedKey ops k tl
end

/-- A Python value bound as an SQL parameter: a str bound directly (key
names, glob/like patterns), json.dumps of a value, or a raw request value. -/
inductive SqlParam where
  | pstr (s : String)
  | pdump (v : Jval)
  | praw (v : Jval)
deriving Repr

/-- SearchWhere._base_crit, verbatim. -/
def baseCrit : String :=
  "select 1 from SEARCH_VALUES where BIN = P.BIN and ID = P.ID and KEY = ?"

/-- The comparison-operator fragment (op_eq/lt/lte/gt/gte and op_in_list,
which reuses op_eq); the trailing double parenthesis is the source's. -/
def critCmp (cmp : String) : String :=
  "exists(" ++ baseCrit ++ " and ? " ++ cmp ++ " VALUE))"

/-- The single-quote character of the SQL text. -/
def sq : String := (Char.ofNat 39).toString

/-- The text-operator fragment (op_glob/op_like). -/
def critText (oper : String) : String :=
  "exists(" ++ baseCrit ++ " and trim(VALUE, " ++ sq ++ "\"" ++ sq ++ ") " ++ oper ++ " ?)"

/-- SearchWhere.aggregate's final join and wrap. -/
def wrapAgg (agg : String) (frags : List (String × List SqlParam)) :
    String × List SqlParam :=
  ("(\n" ++ String.intercalate ("\n" ++ agg ++ " ") (frags.map Prod.fst) ++ "\n)",
   (frags.map Prod.snd).flatten)

mutual
/-- One item of SearchWhere.aggregate's loop: look the key up (KeyError when
absent), then dispatch on the operator name; and/or recurse into the value,
which must be a dict (AttributeError otherwise); an operator name with no
op_ method raises AttributeError through getattr. -/
def compileEntry (ops : List (String × String)) (k : String) (v : Stree) :
    Except PyErr (String × List SqlParam) :=
  match opsLookup ops k with
  | none => .error (.keyError k)
  | some opname =>
      if opname == "and" || opname == "or" then
        match v with
        | .node fs =>
            match compileFieldList ops fs with
            | .error e => .error e
            | .ok frags => .ok (wrapAgg (if opname == "and" then "and" else "or") frags)
        | .leaf _ => .error .attributeError
      else if opname == "eq" then .ok (critCmp "=", [.pstr k, .pdump v.toJval])
      else if opname == "lt" then .ok (critCmp "<", [.pstr k, .pdump v.toJval])
      else if opname == "lte" then .ok (critCmp "<=", [.pstr k, .pdump v.toJval])
      else if opname == "gt" then .ok (critCmp ">", [.pstr k, .pdump v.toJval])
      else if opname == "gte" then .ok (critCmp ">=", [.pstr k, .pdump v.toJval])
      else if opname == "in_list" then .ok (critCmp "=", [.pstr k, .pdump v.toJval])
      else if opname == "glob" then .ok (critText "glob", [.pstr k, .praw v.toJval])
      else if opname == "like" then .ok (critText "like", [.pstr k, .praw v.toJval])
      else .error .attributeError

/-- The items loop of SearchWhere.aggregate, collecting each fragment. -/
def compileFieldList (ops : List (String × String)) :
    SFields → Except PyErr (List (String × List SqlParam))
  | .nil => .ok []
  | .cons k v rest =>
      match compileEntry ops k v with
      | .error e => .error e
      | .ok f =>
          match compileFieldList ops rest with
          | .error e => .error e
          | .ok fs => .ok (f :: fs)

/-- The JSON value a subtree denotes (what json.dumps receives). -/
def Stree.toJval : Stree → Jval
  | .leaf v => v
  | .node fs => .obj fs.toFieldList

/-- Convert the dict shape back to JSON object fields. -/
def SFields.toFieldList : SFields → List (String × Jval)
  | .nil => []
  | .cons k t tl => (k, t.toJval) :: tl.toFieldList
end

/-- SearchWhere.process via op_and on the whole search dict (the empty-where
fallback is unreachable: the wrap always yields a non-empty string). -/
def searchProcess (db : Db) (bin : String) (srch : SFields) :
    Except PyErr (String × List SqlParam) :=
  match compileFieldList (opsFor db bin) srch with
  | .error e => .error e
  | .ok frags => .ok (wrapAgg "and" frags)

/-- Outcome of the bin_search handler. -/
inductive SearchResponse where
  | results (whereClause : String) (params : List SqlParam)
  | httpError (code : Nat) (detail : String)
  | serverError (e : PyErr)
deriving Repr

/-- PakhuisService.bin_search: an empty search dict is rejected with 404
before the database is consulted; a KeyError from query compilation becomes
a 400 naming the key; any other exception propagates (a 500).  The results
case carries the compiled criteria handed to the engine. -/
def bin_search (db : Db) (bin : String) (srch : SFields) : SearchResponse :=
  if srch.isEmpty then .httpError 404 "Empty search"
  else
    match searchProcess db bin srch with
    | .error (.keyError k) => .httpError 400 ("Not a search key: " ++ k)
    | .error e => .serverError e
    | .ok (w, ps) => .results w ps

/-- One entry of a /_sync summary: current timestamp and active flag of a
(bin, id). -/
structure SyncEntry where
  dttm : String
  active : Bool
deriving DecidableEq, Repr

/-- A /_sync response: bin -> id -> entry. -/
abbrev Summary := List (String × List (String × SyncEntry))

/-- The HTTP calls ServerSync.run issues; the Bool tells which peer is the
source (for copies) or the target (for deletes). -/
inductive SyncAction where
  | copyBin (bin : String) (fromFirst : Bool)
  | copyItem (bin id dttm : String) (fromFirst : Bool)
  | delItem (bin id : String) (onFirst : Bool)
deriving DecidableEq, Repr

/-- The shared-id comparison of ServerSync.run: nothing happens unless at
least one side is active ("do not sync inactive items"); otherwise the newer
side wins: an active newer record is copied with its timestamp, an inactive
newer record becomes a delete on the other peer; equal timestamps do
nothing. -/
def syncPairActions (bin id : String) (e1 e2 : SyncEntry) : List SyncAction :=
  if e1.active || e2.active then
    if strLt e2.dttm e1.dttm then
      if e1.active then [SyncAction.copyItem bin id e1.dttm true]
      else [SyncAction.delItem bin id false]
    else if strLt e1.dttm e2.dttm then
      if e2.active then [SyncAction.copyItem bin id e2.dttm false]
      else [SyncAction.delItem bin id true]
    else []
  else []

/-- The per-shared-bin body of ServerSync.run: ids on one peer only are
copied when active (inactive ones are skipped), ids on both peers go through
the shared-id comparison. -/
def syncBinActions (bin : String) (items1 items2 : List (String × SyncEntry)) :
    List SyncAction :=
  (items1.filterMap (fun it =>
    if (items2.lookup it.1).isNone && it.2.active then
      some (SyncAction.copyItem bin it.1 it.2.dttm true)
    else none)) ++
  (items2.filterMap (fun it =>
    if (items1.lookup it.1).isNone && it.2.active then
      some (SyncAction.copyItem bin it.1 it.2.dttm false)
    else none)) ++
  (items1.filterMap (fun it =>
      (items2.lookup it.1).map (fun e2 => (it.1, it.2, e2)))).flatMap
    (fun p => syncPairActions bin p.1 p.2.1 p.2.2)

/-- ServerSync.run on the two summaries, as the list of calls it makes.  The
source iterates over Python sets; the model fixes list order, which no claim
depends on.  Bins present on one peer only are bulk-copied; shared bins go
through syncBinActions. -/
def syncActions (s1 s2 : Summary) : List SyncAction :=
  (s1.filter (fun b => (s2.lookup b.1).isNone)).map (fun b => SyncAction.copyBin b.1 true) ++
  (s2.filter (fun b => (s1.lookup b.1).isNone)).map (fun b => SyncAction.copyBin b.1 false) ++
  (s1.filterMap (fun b =>
      (s2.lookup b.1).map (fun items2 => (b.1, b.2, items2)))).flatMap
    (fun t => syncBinActions t.1 t.2.1 t.2.2)

/-- The bin an action addresses. -/
def SyncAction.binOf : SyncAction → String
  | .copyBin b _ => b
  | .copyItem b _ _ _ => b
  | .delItem b _ _ => b

/-- An action concerns a given (bin, id) when it copies or deletes that item,
or bulk-copies its whole bin. -/
def touchesItem (bin id : String) : SyncAction → Prop
  | .copyBin b _ => b = bin
  | .copyItem b i _ _ => b = bin ∧ i = id
  | .delItem b i _ => b = bin ∧ i = id

/-- The PAKHUIS row a put or soft-delete inserts (STATUS always the column
default A, CONTENT empty for the delete). -/
def toRow (bin id : String) : StoreOp → Row
  | .put c d => { bin := bin, id := id, dttm := d, status := "A", content := some c }
  | .softDelete d => { bin := bin, id := id, dttm := d, status := "A", content := none }

/-- Lexicographic character comparison is irreflexive. -/
theorem charsLt_irrefl (cs : List Char) : charsLt cs cs = false := by
  induction cs with
  | nil => rfl
  | cons c cs ih => simp [charsLt, ih, lt_irrefl]

/-- Text comparison is irreflexive. -/
theorem strLt_irrefl (s : String) : strLt s s = false :=
  charsLt_irrefl s.data

/-- A strictly smaller text value is different. -/
theorem ne_of_strLt {a b : String} (h : strLt a b = true) : a ≠ b := by
  intro he
  rw [he, strLt_irrefl] at h
  cases h

/-- max() of a list whose last element strictly dominates the rest. -/
theorem maxD_concat {l : List String} {d : String}
    (h : ∀ x ∈ l, strLt x d = true) : maxD (l ++ [d]) = some d := by
  induction l with
  | nil => rfl
  | cons x l ih =>
      have hx := h x (by simp)
      have ih2 := ih (fun y hy => h y (by simp [hy]))
      simp [maxD, ih2, maxStr, hx]

/-- find? skips a prefix on which the predicate is false. -/
theorem find?_append_first_none {α : Type} {p : α → Bool} {l1 l2 : List α}
    (h : ∀ x ∈ l1, p x = false) : (l1 ++ l2).find? p = l2.find? p := by
  induction l1 with
  | nil => rfl
  | cons x l ih =>
      have hx := h x (by simp)
      rw [List.cons_append, List.find?_cons, hx]
      exact ih (fun y hy => h y (by simp [hy]))

/-- A successful lookup names a member. -/
theorem lookup_mem {β : Type} {l : List (String × β)} {k : String} {v : β}
    (h : l.lookup k = some v) : (k, v) ∈ l := by
  induction l with
  | nil => cases h
  | cons p t ih =>
      rw [List.lookup] at h
      by_cases hk : k == p.1
      · rw [hk] at h
        cases h
        have : k = p.1 := by
          have := hk
          simpa [beq_iff_eq] using this
        simp [this]
      · rw [Bool.not_eq_true] at hk
        rw [hk] at h
        exact List.mem_cons_of_mem _ (ih h)

/-- With distinct keys, lookup finds the value of any member. -/
theorem lookup_eq_of_mem_nodup {β : Type} {l : List (String × β)}
    (hn : (l.map Prod.fst).Nodup) {k : String} {v : β}
    (hm : (k, v) ∈ l) : l.lookup k = some v := by
  induction l with
  | nil => cases hm
  | cons p t ih =>
      rw [List.map_cons, List.nodup_cons] at hn
      rcases List.mem_cons.mp hm with heq | htl
      · rw [← heq, List.lookup, beq_self_eq_true]
      · rw [List.lookup]
        have hk : (k == p.1) = false := by
          rw [beq_eq_false_iff_ne]
          intro he
          exact hn.1 (he ▸ List.mem_map.mpr ⟨(k, v), htl, rfl⟩)
        rw [hk]
        exact ih hn.2 htl

/-- The loop fails whenever some element fails. -/
theorem mapE_error_of_mem {α β : Type} {f : α → Except PyErr β} {l : List α}
    {r : α} (hr : r ∈ l) {e : PyErr} (he : f r = .error e) :
    ∃ e2, mapE f l = Except.error e2 := by
  induction l with
  | nil => cases hr
  | cons x xs ih =>
      rcases List.mem_cons.mp hr with rfl | hr2
      · exact ⟨e, by simp [mapE, he]⟩
      · cases hfx : f x with
        | error e0 => exact ⟨e0, by simp [mapE, hfx]⟩
        | ok b =>
            obtain ⟨e2, h2⟩ := ih hr2
            exact ⟨e2, by simp [mapE, hfx, h2]⟩

/-- Membership is preserved by the stable DTTM insertion. -/
theorem mem_insertByDttm {a r : Row} {l : List Row} :
    a ∈ insertByDttm r l ↔ a = r ∨ a ∈ l := by
  induction l with
  | nil => simp [insertByDttm]
  | cons x xs ih =>
      by_cases h : strLt x.dttm r.dttm
      · simp [insertByDttm, h, ih]
        tauto
      · simp [insertByDttm, h]

/-- Membership is preserved by the stable DTTM sort. -/
theorem mem_sortByDttm {a : Row} {l : List Row} :
    a ∈ sortByDttm l ↔ a ∈ l := by
  induction l with
  | nil => simp [sortByDttm]
  | cons x xs ih =>
      simp [sortByDttm, mem_insertByDttm, ih]

/-- Membership is preserved by the stable ID insertion. -/
theorem mem_insertById {a r : Row} {l : List Row} :
    a ∈ insertById r l ↔ a = r ∨ a ∈ l := by
  induction l with
  | nil => simp [insertById]
  | cons x xs ih =>
      by_cases h : strLt x.id r.id
      · simp [insertById, h, ih]
        tauto
      · simp [insertById, h]

/-- Membership is preserved by the stable ID sort. -/
theorem mem_sortById {a : Row} {l : List Row} :
    a ∈ sortById l ↔ a ∈ l := by
  induction l with
  | nil => simp [sortById]
  | cons x xs ih =>
      simp [sortById, mem_insertById, ih]

/-- Appending one SEARCH_VALUES row per element, written out. -/
theorem insSVs_searchValues (bin key id : String) (xs : List Jval) :
    ∀ db : Db, (insSVs db bin key id xs).searchValues
      = db.searchValues ++ xs.map (fun x => { bin := bin, key := key, id := id, value := x }) := by
  induction xs with
  | nil => intro db; simp [insSVs]
  | cons x xs ih =>
      intro db
      have hstep : insSVs db bin key id (x :: xs)
          = insSVs (insSV db bin key id x) bin key id xs := rfl
      rw [hstep, ih]
      simp [insSV]

/-- Claim C1: the spec says softDelete appends an Inactive version and that a
subsequent get returns NotFound.  The code's del_item reuses the set_item
INSERT, which never names the STATUS column, so the tombstone is stored with
the default STATUS A and an empty (non-JSON) CONTENT; the subsequent get
selects that row as current active and json.loads raises instead of
returning NotFound. -/
theorem c1_softdelete_row_is_active_and_get_raises :
    applyOps "b" "i" "0" emptyDb [StoreOp.put (Jval.num 1) "1", StoreOp.softDelete "2"]
      = Except.ok { rows := [{ bin := "b", id := "i", dttm := "1", status := "A", content := some (Jval.num 1) },
                             { bin := "b", id := "i", dttm := "2", status := "A", content := none }],
                    binConfig := [], searchKeys := [], searchValues := [] }
    ∧ (applyOps "b" "i" "0" emptyDb [StoreOp.put (Jval.num 1) "1", StoreOp.softDelete "2"]).bind
        (fun d => get_item d "b" "i") = Except.error PyErr.jsonDecodeError :=
  ⟨rfl, rfl⟩

/-- Claim C2, counterexample: after put then softDelete on the same pair, get
neither returns the put content (the maximum-timestamp Active record of the
claim) nor NotFound; it raises a JSON decode error on the tombstone row. -/
theorem c2_counterexample_get_after_delete_raises :
    (applyOps "b" "i" "0" emptyDb [StoreOp.put (Jval.num 3) "1", StoreOp.softDelete "2"]).bind
      (fun d => get_item d "b" "i") = Except.error PyErr.jsonDecodeError
    ∧ (Except.error PyErr.jsonDecodeError : Except PyErr (Option Jval))
        ≠ Except.ok (some (Jval.num 3)) :=
  ⟨rfl, fun h => Except.noConfusion h⟩

/-- Claim C3: cleanup is supposed to delete old superseded or inactive
records and return their number.  The method builds a statement with a
placeholder for the DTTM cutoff but never binds the dt argument (and its
bin-scoped variant also references the undefined alias P), so every call
raises instead of deleting anything. -/
theorem c3_cleanup_always_raises (db : Db) (bin dt : String) :
    cleanup db bin dt = Except.error PyErr.sqlProgrammingError := by
  have h1 : countPlaceholders cleanupQuery = 1 := rfl
  have h2 : countPlaceholders (replaceScope cleanupQuery "P.BIN = ?") = 2 := rfl
  unfold cleanup
  cases h : bin == "" <;> simp [h, h1, h2]

/-- Claim C4: a PUT without the dttm query parameter is supposed to store the
record at the current time.  The handler turns the missing parameter into
the empty string and passes it on, so set_item's None check never fires and
the row is stored with DTTM equal to the empty string, not the current
time. -/
theorem c4_put_without_dttm_stores_empty_timestamp :
    doc_put emptyDb "b" "i" (Jval.obj []) none "2026-10-12 10:00:00"
      = Except.ok { rows := [{ bin := "b", id := "i", dttm := "", status := "A", content := some (Jval.obj []) }],
                    binConfig := [], searchKeys := [], searchValues := [] }
    ∧ ("" : String) ≠ "2026-10-12 10:00:00" :=
  ⟨rfl, by decide⟩

/-- Claim C8: history is supposed to return every record of the pair,
Inactive ones included.  Because del_item stores the tombstone's CONTENT as
the empty string, _get_content's json.loads raises on it and history of any
pair with a soft-delete raises instead of returning the list. -/
theorem c8_history_raises_on_tombstone :
    (applyOps "b" "i" "0" emptyDb [StoreOp.put (Jval.num 2) "1", StoreOp.softDelete "2"]).bind
      (fun d => get_item_history d "b" "i") = Except.error PyErr.jsonDecodeError :=
  rfl

/-- Claim C5, counterexample: both peers hold the id with both current
records Inactive and different timestamps; the claim expects a soft-delete on
the older (second) peer, but the run takes no action at all. -/
theorem c5_counterexample_both_inactive_no_action :
    syncActions [("b", [("1", { dttm := "2", active := false })])]
                [("b", [("1", { dttm := "1", active := false })])] = []
    ∧ SyncAction.delItem "b" "1" false ∉
        syncActions [("b", [("1", { dttm := "2", active := false })])]
                    [("b", [("1", { dttm := "1", active := false })])] := by
  have h : syncActions [("b", [("1", { dttm := "2", active := false })])]
      [("b", [("1", { dttm := "1", active := false })])] = ([] : List SyncAction) := rfl
  exact ⟨h, by rw [h]; exact List.not_mem_nil _⟩

/-- Claim C6, counterexample: a defined in_list key whose path does not
resolve against the content makes indexing raise a TypeError (iterating
None), not a "no value" entry. -/
theorem c6_counterexample_in_list_absent_path_raises :
    set_index_item { rows := [], binConfig := [],
                     searchKeys := [{ bin := "b", key := "k", path := "/a", type := "in_list" }],
                     searchValues := [] } "b" "i" (some (Jval.obj []))
      = Except.error PyErr.typeError :=
  rfl

/-- Claim C6, amended: for a non-in_list key, a syntactically valid path that
does not resolve (or resolves to null) yields one "no value" (null) entry and
no error, while one resolving to a value yields that value's entry, and the
trailing-dash EndOfList sentinel makes json.dumps raise a TypeError; for an
in_list key an unresolved path (iterating None) and the EndOfList sentinel
both raise a TypeError; for an in_list key whose path resolves to an array,
exactly one entry per element is inserted (the last conjunct spells the
inserted rows out). -/
theorem c6_index_one_key_behaviour (db : Db) (bin id : String) (c : Jval) (k : SKey) :
    (k.type ≠ "in_list" → resolveToPy c k.path = .ok .pynone →
        index_one_key db bin id c k = .ok (insSV db bin k.key id .null)) ∧
    (k.type ≠ "in_list" → ∀ v, resolveToPy c k.path = .ok (.pyval v) →
        index_one_key db bin id c k = .ok (insSV db bin k.key id v)) ∧
    (k.type ≠ "in_list" → resolveToPy c k.path = .ok .pyEndOfList →
        index_one_key db bin id c k = .error .typeError) ∧
    (k.type = "in_list" → resolveToPy c k.path = .ok .pynone →
        index_one_key db bin id c k = .error .typeError) ∧
    (k.type = "in_list" → resolveToPy c k.path = .ok .pyEndOfList →
        index_one_key db bin id c k = .error .typeError) ∧
    (k.type = "in_list" → ∀ xs, resolveToPy c k.path = .ok (.pyval (.arr xs)) →
        index_one_key db bin id c k = .ok (insSVs db bin k.key id xs)) ∧
    (∀ xs, (insSVs db bin k.key id xs).searchValues
        = db.searchValues ++ xs.map (fun x => { bin := bin, key := k.key, id := id, value := x })) := by
  refine ⟨?_, ?_, ?_, ?_, ?_, ?_, fun xs => insSVs_searchValues bin k.key id xs db⟩
  · intro hne hres
    have hb : (k.type == "in_list") = false := by rw [beq_eq_false_iff_ne]; exact hne
    simp [index_one_key, hb, hres]
  · intro hne v hres
    have hb : (k.type == "in_list") = false := by rw [beq_eq_false_iff_ne]; exact hne
    simp [index_one_key, hb, hres]
  · intro hne hres
    have hb : (k.type == "in_list") = false := by rw [beq_eq_false_iff_ne]; exact hne
    simp [index_one_key, hb, hres]
  · intro he hres
    have hb : (k.type == "in_list") = true := by rw [beq_iff_eq]; exact he
    simp [index_one_key, hb, hres]
  · intro he hres
    have hb : (k.type == "in_list") = true := by rw [beq_iff_eq]; exact he
    simp [index_one_key, hb, hres]
  · intro he xs hres
    have hb : (k.type == "in_list") = true := by rw [beq_iff_eq]; exact he
    simp [index_one_key, hb, hres, pyIter]

/-- Witness for the amended C6 at concrete inputs: an eq key with an absent
path yields the null entry, an in_list key over a two-element array yields
one entry per element. -/
theorem c6_index_one_key_behaviour_witness :
    index_one_key emptyDb "b" "i" (Jval.obj [])
        { bin := "b", key := "k", path := "/a", type := "eq" }
      = Except.ok (insSV emptyDb "b" "k" "i" Jval.null)
    ∧ index_one_key emptyDb "b" "i" (Jval.obj [("a", Jval.arr [Jval.num 1, Jval.num 2])])
        { bin := "b", key := "k", path := "/a", type := "in_list" }
      = Except.ok (insSVs emptyDb "b" "k" "i" [Jval.num 1, Jval.num 2]) := by
  constructor
  · exact (c6_index_one_key_behaviour emptyDb "b" "i" (Jval.obj [])
      { bin := "b", key := "k", path := "/a", type := "eq" }).1 (by decide) rfl
  · exact (c6_index_one_key_behaviour emptyDb "b" "i"
      (Jval.obj [("a", Jval.arr [Jval.num 1, Jval.num 2])])
      { bin := "b", key := "k", path := "/a", type := "in_list" }).2.2.2.2.2.1 rfl
      [Jval.num 1, Jval.num 2] rfl

/-- Claim C7, counterexample: the tree contains the undefined key zz, yet the
response is not the 400 naming it: the earlier and entry holds a non-mapping
value, its AttributeError propagates and the request fails as a 500. -/
theorem c7_counterexample_earlier_error_preempts_400 :
    bin_search emptyDb "b"
        (SFields.cons "and" (Stree.leaf (Jval.num 1))
          (SFields.cons "zz" (Stree.leaf Jval.null) SFields.nil))
      = SearchResponse.serverError PyErr.attributeError
    ∧ opsLookup (opsFor emptyDb "b") "zz" = none :=
  ⟨rfl, rfl⟩

/-- Claim C9, counterexample: a put whose effective timestamp does not exceed
an existing record's timestamp is not returned by the immediate get; here the
pre-existing row at DTTM 2 stays current and its content 1 is returned
instead of the just-stored 2. -/
theorem c9_counterexample_put_get_returns_other_row :
    (set_item { rows := [{ bin := "b", id := "i", dttm := "2", status := "A", content := some (Jval.num 1) }],
                binConfig := [], searchKeys := [], searchValues := [] }
        "b" "i" (Jval.num 2) none "1").bind (fun d => get_item d "b" "i")
      = Except.ok (some (Jval.num 1))
    ∧ Jval.num 1 ≠ Jval.num 2 := by
  refine ⟨rfl, fun h => ?_⟩
  injection h with h2
  exact absurd h2 (by decide)

/-- An undefined key makes the loop body raise KeyError at the ops lookup. -/
theorem compileEntry_undefined (ops : List (String × String)) (k : String)
    (v : Stree) (h : opsLookup ops k = none) :
    compileEntry ops k v = .error (.keyError k) := by
  unfold compileEntry
  rw [h]

mutual
/-- A KeyError out of one loop body always names an undefined key. -/
theorem compileEntry_keyError (ops : List (String × String)) (k0 : String)
    (v : Stree) (k : String)
    (h : compileEntry ops k0 v = .error (.keyError k)) :
    opsLookup ops k = none := by
  rw [compileEntry] at h
  cases hl : opsLookup ops k0 with
  | none =>
      rw [hl] at h
      injection h with h2
      injection h2 with h3
      exact h3 ▸ hl
  | some opname =>
      rw [hl] at h
      dsimp only at h
      by_cases hao : (opname == "and" || opname == "or") = true
      · rw [if_pos hao] at h
        cases v with
        | leaf v0 => simp at h
        | node fs =>
            dsimp only at h
            cases hc : compileFieldList ops fs with
            | error e =>
                rw [hc] at h
                injection h with h2
                exact compileFieldList_keyError ops fs k (h2 ▸ hc)
            | ok frags => rw [hc] at h; simp at h
      · rw [if_neg hao] at h
        repeat' split at h
        all_goals simp at h

/-- A KeyError out of the aggregate loop always names an undefined key. -/
theorem compileFieldList_keyError (ops : List (String × String)) (fs : SFields)
    (k : String)
    (h : compileFieldList ops fs = .error (.keyError k)) :
    opsLookup ops k = none := by
  cases fs with
  | nil => rw [compileFieldList] at h; cases h
  | cons k0 v0 tl =>
      rw [compileFieldList] at h
      cases hce : compileEntry ops k0 v0 with
      | error e =>
          rw [hce] at h
          injection h with h2
          exact compileEntry_keyError ops k0 v0 k (h2 ▸ hce)
      | ok f =>
          rw [hce] at h
          cases hcl : compileFieldList ops tl with
          | error e =>
              rw [hcl] at h
              injection h with h2
              exact compileFieldList_keyError ops tl k (h2 ▸ hcl)
          | ok fl => rw [hcl] at h; cases h
end

mutual
/-- A processed occurrence of an undefined key inside an and/or entry forces
the entry to fail. -/
theorem compileEntry_processed_undefined (ops : List (String × String))
    (k0 : String) (v : Stree) (k : String)
    (hop : opsLookup ops k0 = some "and" ∨ opsLookup ops k0 = some "or")
    (h : Stree.hasProcessedKey ops k v) (hlk : opsLookup ops k = none) :
    ∃ e, compileEntry ops k0 v = .error e := by
  cases v with
  | leaf v0 => exact absurd h (by simp [Stree.hasProcessedKey])
  | node fs =>
      have h2 : SFields.hasProcessedKey ops k fs := h
      obtain ⟨e, he⟩ := compileFieldList_processed_undefined ops fs k h2 hlk
      rcases hop with hand | hor
      · exact ⟨e, by rw [compileEntry, hand]; simp [he]⟩
      · exact ⟨e, by rw [compileEntry, hor]; simp [he]⟩

/-- A processed occurrence of an undefined key anywhere under the dict
(top level or inside nested and/or mappings) forces the aggregate loop to
fail. -/
theorem compileFieldList_processed_undefined (ops : List (String × String))
    (fs : SFields) (k : String)
    (h : SFields.hasProcessedKey ops k fs) (hlk : opsLookup ops k = none) :
    ∃ e, compileFieldList ops fs = .error e := by
  cases fs with
  | nil => exact absurd h (by simp [SFields.hasProcessedKey])
  | cons k0 v0 tl =>
      have h2 : k0 = k
          ∨ ((opsLookup ops k0 = some "and" ∨ opsLookup ops k0 = some "or")
              ∧ Stree.hasProcessedKey ops k v0)
          ∨ SFields.hasProcessedKey ops k tl := h
      cases hce : compileEntry ops k0 v0 with
      | error e => exact ⟨e, by rw [compileFieldList, hce]⟩
      | ok f =>
          rcases h2 with heq | ⟨hop, hv⟩ | htl
          · exfalso
            rw [heq, compileEntry_undefined ops k v0 hlk] at hce
            cases hce
          · exfalso
            obtain ⟨e, he⟩ := compileEntry_processed_undefined ops k0 v0 k hop hv hlk
            rw [he] at hce
            cases hce
          · obtain ⟨e, he⟩ := compileFieldList_processed_undefined ops tl k htl hlk
            exact ⟨e, by rw [compileFieldList, hce, he]⟩
end

/-- A KeyError surfaced by searchProcess names an undefined key. -/
theorem searchProcess_keyError (db : Db) (bin : String) (srch : SFields)
    (k : String) (h : searchProcess db bin srch = .error (.keyError k)) :
    opsLookup (opsFor db bin) k = none := by
  rw [searchProcess] at h
  cases hc : compileFieldList (opsFor db bin) srch with
  | error e =>
      rw [hc] at h
      injection h with h2
      exact compileFieldList_keyError _ _ _ (h2 ▸ hc)
  | ok frags => rw [hc] at h; cases h

/-- Claim C7, amended: an empty tree is answered 404 before compilation; a
KeyError from compilation always names an undefined key and is answered 400
with that key in the message; and any key the compiler processes (at the top
level or at any depth inside nested and/or mappings) that is undefined
guarantees the request never returns results (though the failure may be a
different error surfacing as 500, per the counterexample). -/
theorem c7_search_key_errors (db : Db) (bin : String) (srch : SFields) :
    (srch = SFields.nil → bin_search db bin srch = .httpError 404 "Empty search") ∧
    (∀ k, searchProcess db bin srch = .error (.keyError k) →
        opsLookup (opsFor db bin) k = none
        ∧ bin_search db bin srch = .httpError 400 ("Not a search key: " ++ k)) ∧
    (∀ k, SFields.hasProcessedKey (opsFor db bin) k srch →
        opsLookup (opsFor db bin) k = none →
        ∀ w ps, bin_search db bin srch ≠ .results w ps) := by
  refine ⟨?_, ?_, ?_⟩
  · intro h
    rw [h]
    rfl
  · intro k h
    refine ⟨searchProcess_keyError db bin srch k h, ?_⟩
    cases srch with
    | nil =>
        exfalso
        rw [searchProcess, compileFieldList] at h
        cases h
    | cons k0 v0 tl =>
        rw [bin_search]
        simp only [SFields.isEmpty, h]
        rfl
  · intro k hk hlk w ps heq
    cases srch with
    | nil => exact absurd hk (by simp [SFields.hasProcessedKey])
    | cons k0 v0 tl =>
        obtain ⟨e, he⟩ := compileFieldList_processed_undefined (opsFor db bin) (SFields.cons k0 v0 tl) k hk hlk
        have hsp : searchProcess db bin (SFields.cons k0 v0 tl) = .error e := by
          rw [searchProcess, he]
        rw [bin_search] at heq
        simp only [SFields.isEmpty, hsp] at heq
        cases e <;> simp at heq

/-- Witness for the amended C7 at a concrete input: a one-entry tree with the
undefined key zz is answered 400 naming zz. -/
theorem c7_search_key_errors_witness :
    bin_search emptyDb "b" (SFields.cons "zz" (Stree.leaf Jval.null) SFields.nil)
      = SearchResponse.httpError 400 ("Not a search key: " ++ "zz") :=
  ((c7_search_key_errors emptyDb "b"
      (SFields.cons "zz" (Stree.leaf Jval.null) SFields.nil)).2.1 "zz" rfl).2

/-- Both store operations insert the row the pair predicate accepts. -/
theorem rowIsFor_toRow (bin id : String) (o : StoreOp) :
    rowIsFor bin id (toRow bin id o) = true := by
  cases o <;> simp [rowIsFor, toRow]

/-- The inserted row carries the operation's timestamp. -/
theorem toRow_dttm (bin id : String) (o : StoreOp) :
    (toRow bin id o).dttm = opDttm o := by
  cases o <;> rfl

/-- The inserted row always has STATUS A (the column default). -/
theorem toRow_status (bin id : String) (o : StoreOp) :
    (toRow bin id o).status = "A" := by
  cases o <;> rfl

/-- Running operations against a bin with no index keys and an empty
SEARCH_VALUES table never raises and simply appends one row per operation. -/
theorem applyOps_no_keys (bin id now : String) (ops : List StoreOp) :
    ∀ db : Db, keysFor db bin = [] → db.searchValues = [] →
    applyOps bin id now db ops
      = .ok { rows := db.rows ++ ops.map (toRow bin id),
              binConfig := db.binConfig, searchKeys := db.searchKeys,
              searchValues := [] } := by
  induction ops with
  | nil =>
      intro db hk hv
      rw [applyOps, List.foldlM_nil]
      cases db
      simp_all [pure, Except.pure]
  | cons op ops ih =>
      intro db hk hv
      rw [applyOps, List.foldlM_cons]
      have hk2 : db.searchKeys.filter (fun k => k.bin == bin) = [] := hk
      cases op with
      | put c d =>
          have hstep : applyOp bin id now db (.put c d)
              = .ok { rows := db.rows ++ [toRow bin id (.put c d)],
                      binConfig := db.binConfig, searchKeys := db.searchKeys,
                      searchValues := [] } := by
            simp [applyOp, set_item, set_index_item, clearSV, keysFor, hk2, hv, toRow,
              pure, Except.pure]
          rw [hstep]
          show applyOps bin id now
              { rows := db.rows ++ [toRow bin id (StoreOp.put c d)],
                binConfig := db.binConfig, searchKeys := db.searchKeys,
                searchValues := [] } ops = _
          rw [ih { rows := db.rows ++ [toRow bin id (StoreOp.put c d)],
                   binConfig := db.binConfig, searchKeys := db.searchKeys,
                   searchValues := [] } hk2 rfl]
          simp
      | softDelete d =>
          have hstep : applyOp bin id now db (.softDelete d)
              = .ok { rows := db.rows ++ [toRow bin id (.softDelete d)],
                      binConfig := db.binConfig, searchKeys := db.searchKeys,
                      searchValues := [] } := by
            simp [applyOp, del_item, clearSV, hv, toRow, pure, Except.pure]
          rw [hstep]
          show applyOps bin id now
              { rows := db.rows ++ [toRow bin id (StoreOp.softDelete d)],
                binConfig := db.binConfig, searchKeys := db.searchKeys,
                searchValues := [] } ops = _
          rw [ih { rows := db.rows ++ [toRow bin id (StoreOp.softDelete d)],
                   binConfig := db.binConfig, searchKeys := db.searchKeys,
                   searchValues := [] } hk2 rfl]
          simp

/-- Claim C2, amended: from an empty store (no index keys), for a sequence of
put/softDelete on one (bin, id) with strictly increasing timestamps, get
returns the last put's content when the last operation is a put, raises the
tombstone decode error when it is a softDelete, and returns NotFound exactly
when the sequence is empty. -/
theorem c2_get_returns_last_op (bin id now : String) (ops : List StoreOp) (db' : Db)
    (hinc : (ops.map opDttm).Pairwise (fun a b => strLt a b = true))
    (happ : applyOps bin id now emptyDb ops = .ok db') :
    get_item db' bin id =
      (match ops.getLast? with
       | none => Except.ok none
       | some (.put c _) => Except.ok (some c)
       | some (.softDelete _) => Except.error PyErr.jsonDecodeError) := by
  have h0 := applyOps_no_keys bin id now ops emptyDb rfl rfl
  rw [happ] at h0
  injection h0 with h0
  subst h0
  rcases List.eq_nil_or_concat ops with rfl | ⟨pre, op, rfl⟩
  · rfl
  · rw [List.concat_eq_append] at hinc ⊢
    set dbf : Db := { rows := emptyDb.rows ++ (pre ++ [op]).map (toRow bin id),
                      binConfig := emptyDb.binConfig, searchKeys := emptyDb.searchKeys,
                      searchValues := [] } with hdbf
    have hrows : dbf.rows = pre.map (toRow bin id) ++ [toRow bin id op] := by
      simp [hdbf, emptyDb]
    have hcross : ∀ x ∈ pre.map opDttm, strLt x (opDttm op) = true := by
      rw [List.map_append] at hinc
      have := (List.pairwise_append.mp hinc).2.2
      intro x hx
      exact this x hx (opDttm op) (by simp)
    have hfilter : dbf.rows.filter (rowIsFor bin id) = dbf.rows := by
      rw [List.filter_eq_self]
      intro r hr
      rw [hrows] at hr
      rcases List.mem_append.mp hr with hr | hr
      · obtain ⟨o, _, rfl⟩ := List.mem_map.mp hr
        exact rowIsFor_toRow bin id o
      · rw [List.mem_singleton.mp hr]
        exact rowIsFor_toRow bin id op
    have hdttms : dbf.rows.map Row.dttm = pre.map opDttm ++ [opDttm op] := by
      rw [hrows, List.map_append, List.map_map]
      congr 1
      · exact List.map_congr_left (fun o _ => toRow_dttm bin id o)
      · simp [toRow_dttm]
    have hmax : maxDttm dbf bin id = some (opDttm op) := by
      rw [maxDttm, pairDttms, hfilter, hdttms]
      exact maxD_concat hcross
    have hfind : currentActiveRow dbf bin id = some (toRow bin id op) := by
      rw [currentActiveRow, hrows]
      rw [find?_append_first_none]
      · rw [List.find?_cons]
        have : (rowIsFor bin id (toRow bin id op) &&
            (maxDttm dbf bin id == some (toRow bin id op).dttm) &&
            (toRow bin id op).status == "A") = true := by
          rw [rowIsFor_toRow, toRow_dttm, toRow_status, hmax]
          simp
        rw [this]
      · intro x hx
        obtain ⟨o, ho, rfl⟩ := List.mem_map.mp hx
        have hne : (maxDttm dbf bin id == some (toRow bin id o).dttm) = false := by
          rw [hmax, toRow_dttm, beq_eq_false_iff_ne]
          intro hcontra
          have h2 : opDttm op = opDttm o := Option.some.inj hcontra
          exact ne_of_strLt (hcross (opDttm o) (List.mem_map.mpr ⟨o, ho, rfl⟩)) h2.symm
        rw [hne]
        simp
    rw [get_item, hfind]
    have hlast : (pre ++ [op]).getLast? = some op := List.getLast?_concat pre
    rw [hlast]
    have hinc2 : includeId dbf bin = false := rfl
    cases op with
    | put c d => simp [get_content, hinc2, toRow, Except.map]
    | softDelete d => simp [get_content, toRow, Except.map]

/-- Witness for the amended C2: one put at timestamp 1, then get returns its
content. -/
theorem c2_get_returns_last_op_witness :
    get_item { rows := [{ bin := "b", id := "i", dttm := "1", status := "A", content := some (Jval.num 4) }],
               binConfig := [], searchKeys := [], searchValues := [] } "b" "i"
      = Except.ok (some (Jval.num 4)) :=
  c2_get_returns_last_op "b" "i" "0" [StoreOp.put (Jval.num 4) "1"]
    { rows := [{ bin := "b", id := "i", dttm := "1", status := "A", content := some (Jval.num 4) }],
      binConfig := [], searchKeys := [], searchValues := [] }
    (by simp) rfl

/-- Value inserts touch only SEARCH_VALUES. -/
theorem insSVs_state (bin key id : String) (xs : List Jval) :
    ∀ db : Db, (insSVs db bin key id xs).rows = db.rows
      ∧ (insSVs db bin key id xs).binConfig = db.binConfig
      ∧ (insSVs db bin key id xs).searchKeys = db.searchKeys := by
  induction xs with
  | nil => intro db; exact ⟨rfl, rfl, rfl⟩
  | cons x xs ih =>
      intro db
      have hstep : insSVs db bin key id (x :: xs)
          = insSVs (insSV db bin key id x) bin key id xs := rfl
      rw [hstep]
      exact ih (insSV db bin key id x)

/-- One key-loop iteration touches only SEARCH_VALUES. -/
theorem index_one_key_state {db db' : Db} {bin id : String} {c : Jval} {k : SKey}
    (h : index_one_key db bin id c k = .ok db') :
    db'.rows = db.rows ∧ db'.binConfig = db.binConfig
      ∧ db'.searchKeys = db.searchKeys := by
  rw [index_one_key] at h
  by_cases ht : (k.type == "in_list") = true
  · rw [if_pos ht] at h
    cases hres : resolveToPy c k.path with
    | error e => rw [hres] at h; cases h
    | ok pv =>
        rw [hres] at h
        cases pv with
        | pynone => cases h
        | pyEndOfList => cases h
        | pyval v =>
            dsimp only at h
            cases hit : pyIter v with
            | none => rw [hit] at h; cases h
            | some items =>
                rw [hit] at h
                injection h with h2
                subst h2
                exact insSVs_state bin k.key id items db
  · rw [if_neg ht] at h
    cases hres : resolveToPy c k.path with
    | error e => rw [hres] at h; cases h
    | ok pv =>
        rw [hres] at h
        cases pv with
        | pynone =>
            injection h with h2
            subst h2
            exact ⟨rfl, rfl, rfl⟩
        | pyEndOfList => cases h
        | pyval v =>
            injection h with h2
            subst h2
            exact ⟨rfl, rfl, rfl⟩

/-- The whole key loop touches only SEARCH_VALUES. -/
theorem foldl_index_state (bin id : String) (c : Jval) :
    ∀ (ks : List SKey) (db db' : Db),
      ks.foldlM (fun d k => index_one_key d bin id c k) db = .ok db' →
      db'.rows = db.rows ∧ db'.binConfig = db.binConfig
        ∧ db'.searchKeys = db.searchKeys := by
  intro ks
  induction ks with
  | nil =>
      intro db db' h
      rw [List.foldlM_nil] at h
      injection h with h2
      subst h2
      exact ⟨rfl, rfl, rfl⟩
  | cons k ks ih =>
      intro db db' h
      rw [List.foldlM_cons] at h
      cases hk : index_one_key db bin id c k with
      | error e => rw [hk] at h; cases h
      | ok d1 =>
          rw [hk] at h
          have h1 := index_one_key_state hk
          have h2 := ih d1 db' h
          exact ⟨h2.1.trans h1.1, h2.2.1.trans h1.2.1, h2.2.2.trans h1.2.2⟩

/-- set_index_item touches only SEARCH_VALUES. -/
theorem set_index_item_state {db db' : Db} {bin id : String} {content : Option Jval}
    (h : set_index_item db bin id content = .ok db') :
    db'.rows = db.rows ∧ db'.binConfig = db.binConfig
      ∧ db'.searchKeys = db.searchKeys := by
  simp only [set_index_item] at h
  cases content with
  | none =>
      injection h with h2
      subst h2
      exact ⟨rfl, rfl, rfl⟩
  | some c =>
      dsimp only at h
      have h3 := foldl_index_state bin id c (keysFor (clearSV db bin id) bin)
        (clearSV db bin id) db' h
      exact h3

/-- Claim C9, amended: when every existing record of the pair is strictly
older than the put's effective timestamp, a successful put followed
immediately by get returns exactly the stored content as long as the bin's
include_id flag is off; with include_id on, get raises an IndexError
instead, because the get_item query selects no ID column for the merge to
read. -/
theorem c9_put_then_get_roundtrip (db : Db) (bin id : String) (content : Jval)
    (dttm : Option String) (now : String) (db' : Db)
    (hdom : ∀ r ∈ db.rows, rowIsFor bin id r = true → strLt r.dttm (dttm.getD now) = true)
    (hput : set_item db bin id content dttm now = .ok db') :
    (includeId db bin = false → get_item db' bin id = .ok (some content)) ∧
    (includeId db bin = true → get_item db' bin id = .error .indexError) := by
  simp only [set_item] at hput
  obtain ⟨hrows, hcfg, _⟩ := set_index_item_state hput
  have hrows2 : db'.rows
      = db.rows ++ [{ bin := bin, id := id, dttm := dttm.getD now, status := "A",
                      content := some content }] := hrows
  set row : Row := { bin := bin, id := id, dttm := dttm.getD now, status := "A",
                     content := some content } with hrow
  have hrfor : rowIsFor bin id row = true := by simp [rowIsFor, hrow]
  have hfilter : db'.rows.filter (rowIsFor bin id)
      = db.rows.filter (rowIsFor bin id) ++ [row] := by
    rw [hrows2, List.filter_append]
    simp [hrfor]
  have hcross : ∀ x ∈ (db.rows.filter (rowIsFor bin id)).map Row.dttm,
      strLt x (dttm.getD now) = true := by
    intro x hx
    obtain ⟨r, hr, rfl⟩ := List.mem_map.mp hx
    have hr2 := List.mem_filter.mp hr
    exact hdom r hr2.1 hr2.2
  have hmax : maxDttm db' bin id = some (dttm.getD now) := by
    rw [maxDttm, pairDttms, hfilter, List.map_append]
    exact maxD_concat hcross
  have hfind : currentActiveRow db' bin id = some row := by
    rw [currentActiveRow, hrows2]
    rw [find?_append_first_none]
    · rw [List.find?_cons]
      have hp : (rowIsFor bin id row && (maxDttm db' bin id == some row.dttm) &&
          row.status == "A") = true := by
        rw [hrfor, hmax]
        simp [hrow]
      rw [hp]
    · intro r hr
      cases hri : rowIsFor bin id r
      · simp [hri]
      · have hne : (maxDttm db' bin id == some r.dttm) = false := by
          rw [hmax, beq_eq_false_iff_ne]
          intro hcontra
          have h2 : dttm.getD now = r.dttm := Option.some.inj hcontra
          exact ne_of_strLt (hdom r hr hri) h2.symm
        rw [hne]
        simp
  have hinc2 : includeId db' bin = includeId db bin := by
    rw [includeId, includeId, hcfg]
  have hgi : get_item db' bin id = (get_content db' bin none row.content).map some := by
    rw [get_item, hfind]
  have hgc : get_content db' bin none row.content
      = if includeId db bin then Except.error PyErr.indexError
        else Except.ok content := by
    show get_content db' bin none (some content) = _
    simp only [get_content]
    rw [hinc2]
  constructor
  · intro hinc
    rw [hgi, hgc, hinc]
    simp [Except.map]
  · intro hinc
    rw [hgi, hgc, hinc]
    simp [Except.map]

/-- Witness for the amended C9: a put on the empty store followed by get
returns the stored content when include_id is off, and raises the
IndexError when the bin has include_id on. -/
theorem c9_put_then_get_roundtrip_witness :
    get_item { rows := [{ bin := "b", id := "i", dttm := "1", status := "A", content := some (Jval.num 5) }],
               binConfig := [], searchKeys := [], searchValues := [] } "b" "i"
      = Except.ok (some (Jval.num 5))
    ∧ get_item { rows := [{ bin := "b", id := "i", dttm := "1", status := "A", content := some (Jval.num 5) }],
                 binConfig := [("b", true)], searchKeys := [], searchValues := [] } "b" "i"
      = Except.error PyErr.indexError := by
  constructor
  · exact (c9_put_then_get_roundtrip emptyDb "b" "i" (Jval.num 5) (some "1") "0"
      { rows := [{ bin := "b", id := "i", dttm := "1", status := "A", content := some (Jval.num 5) }],
        binConfig := [], searchKeys := [], searchValues := [] }
      (fun r hr => absurd hr (List.not_mem_nil r)) rfl).1 rfl
  · exact (c9_put_then_get_roundtrip
      { rows := [], binConfig := [("b", true)], searchKeys := [], searchValues := [] }
      "b" "i" (Jval.num 5) (some "1") "0"
      { rows := [{ bin := "b", id := "i", dttm := "1", status := "A", content := some (Jval.num 5) }],
        binConfig := [("b", true)], searchKeys := [], searchValues := [] }
      (fun r hr => absurd hr (List.not_mem_nil r)) rfl).2 rfl

/-- With both sides inactive the shared-id comparison does nothing. -/
theorem syncPairActions_both_inactive (bin id : String) (e1 e2 : SyncEntry)
    (h1 : e1.active = false) (h2 : e2.active = false) :
    syncPairActions bin id e1 e2 = [] := by
  rw [syncPairActions, h1, h2]
  simp

/-- Every action the shared-id comparison emits addresses that id. -/
theorem mem_syncPairActions_shape {a : SyncAction} {bin id : String}
    {e1 e2 : SyncEntry} (ha : a ∈ syncPairActions bin id e1 e2) :
    a = .copyItem bin id e1.dttm true ∨ a = .delItem bin id false
      ∨ a = .copyItem bin id e2.dttm false ∨ a = .delItem bin id true := by
  rw [syncPairActions] at ha
  repeat' split at ha
  all_goals first
    | exact absurd ha (List.not_mem_nil a)
    | (rw [List.mem_singleton] at ha; tauto)

/-- Every action a shared bin's body emits addresses that bin. -/
theorem mem_syncBinActions_binOf {a : SyncAction} {bin : String}
    {items1 items2 : List (String × SyncEntry)}
    (ha : a ∈ syncBinActions bin items1 items2) : a.binOf = bin := by
  rw [syncBinActions] at ha
  rcases List.mem_append.mp ha with h | h
  · rcases List.mem_append.mp h with h | h
    · obtain ⟨it, _, hsome⟩ := List.mem_filterMap.mp h
      split at hsome
      · injection hsome with h2; rw [← h2]; rfl
      · cases hsome
    · obtain ⟨it, _, hsome⟩ := List.mem_filterMap.mp h
      split at hsome
      · injection hsome with h2; rw [← h2]; rfl
      · cases hsome
  · obtain ⟨p, _, hap⟩ := List.mem_flatMap.mp h
    rcases mem_syncPairActions_shape hap with h | h | h | h <;> rw [h] <;> rfl

/-- Claim C5, amended: an id present on both peers whose two current records
are both Inactive is skipped entirely; no action of the run concerns that
(bin, id), whatever the timestamps. -/
theorem c5_both_inactive_pairs_skipped
    (s1 s2 : Summary) (bin id : String)
    (items1 items2 : List (String × SyncEntry)) (e1 e2 : SyncEntry)
    (hn1 : (s1.map Prod.fst).Nodup) (hni : (items1.map Prod.fst).Nodup)
    (h1 : s1.lookup bin = some items1) (h2 : s2.lookup bin = some items2)
    (hi1 : items1.lookup id = some e1) (hi2 : items2.lookup id = some e2)
    (ha1 : e1.active = false) (ha2 : e2.active = false) :
    ∀ a ∈ syncActions s1 s2, ¬ touchesItem bin id a := by
  intro a ha htouch
  rw [syncActions] at ha
  rcases List.mem_append.mp ha with hab | ha
  · rcases List.mem_append.mp hab with ha | ha
    · obtain ⟨b, hb, rfl⟩ := List.mem_map.mp ha
      obtain ⟨hbs1, hnone⟩ := List.mem_filter.mp hb
      have hbin : b.1 = bin := htouch
      rw [hbin, h2] at hnone
      simp at hnone
    · obtain ⟨b, hb, rfl⟩ := List.mem_map.mp ha
      obtain ⟨hbs2, hnone⟩ := List.mem_filter.mp hb
      have hbin : b.1 = bin := htouch
      rw [hbin, h1] at hnone
      simp at hnone
  obtain ⟨t, ht, hat⟩ := List.mem_flatMap.mp ha
  obtain ⟨b, hbs1, hsome⟩ := List.mem_filterMap.mp ht
  rw [Option.map_eq_some'] at hsome
  obtain ⟨its2, hlk2, hteq⟩ := hsome
  subst hteq
  have hbina : a.binOf = b.1 := mem_syncBinActions_binOf hat
  have habin : a.binOf = bin := by
    cases a with
    | copyBin b0 f => exact htouch
    | copyItem b0 i0 d0 f => exact htouch.1
    | delItem b0 i0 f => exact htouch.1
  have hb1 : b.1 = bin := hbina.symm.trans habin
  rw [hb1] at hlk2
  have hits2 : its2 = items2 := Option.some.inj (hlk2.symm.trans h2)
  have hmemb : (bin, b.2) ∈ s1 := by
    rw [← hb1]
    simpa using hbs1
  have hlkb : s1.lookup bin = some b.2 := lookup_eq_of_mem_nodup hn1 hmemb
  have hbitems : b.2 = items1 := Option.some.inj (hlkb.symm.trans h1)
  rw [hb1, hits2, hbitems] at hat
  rw [syncBinActions] at hat
  dsimp only at hat
  rcases List.mem_append.mp hat with hseg12 | hseg2
  · rcases List.mem_append.mp hseg12 with hseg | hseg
    · obtain ⟨it, hit, hsome2⟩ := List.mem_filterMap.mp hseg
      have hcond : ((items2.lookup it.1).isNone && it.2.active) = true := by
        by_contra hc
        rw [if_neg hc] at hsome2
        cases hsome2
      rw [if_pos hcond] at hsome2
      injection hsome2 with h2a
      subst h2a
      have hid : it.1 = id := htouch.2
      rw [hid, hi2] at hcond
      simp at hcond
    · obtain ⟨it, hit, hsome2⟩ := List.mem_filterMap.mp hseg
      have hcond : ((items1.lookup it.1).isNone && it.2.active) = true := by
        by_contra hc
        rw [if_neg hc] at hsome2
        cases hsome2
      rw [if_pos hcond] at hsome2
      injection hsome2 with h2a
      subst h2a
      have hid : it.1 = id := htouch.2
      rw [hid, hi1] at hcond
      simp at hcond
  obtain ⟨p, hp, hap⟩ := List.mem_flatMap.mp hseg2
  obtain ⟨it, hit, hsome2⟩ := List.mem_filterMap.mp hp
  rw [Option.map_eq_some'] at hsome2
  obtain ⟨e2a, hlk, hpeq⟩ := hsome2
  subst hpeq
  have hid : it.1 = id := by
    rcases mem_syncPairActions_shape hap with h | h | h | h <;> rw [h] at htouch <;>
      exact htouch.2
  rw [hid] at hlk
  have he2 : e2a = e2 := Option.some.inj (hlk.symm.trans hi2)
  have hmem2 : (id, it.2) ∈ items1 := by
    rw [← hid]
    simpa using hit
  have hlki : items1.lookup id = some it.2 := lookup_eq_of_mem_nodup hni hmem2
  have hite2 : it.2 = e1 := Option.some.inj (hlki.symm.trans hi1)
  rw [hid, hite2, he2] at hap
  rw [syncPairActions_both_inactive bin id e1 e2 ha1 ha2] at hap
  cases hap

/-- Witness for the amended C5: a run where the shared id 1 is inactive on
both peers while id 2 still produces a copy; the emitted action does not
touch ("b", "1"). -/
theorem c5_both_inactive_pairs_skipped_witness :
    ¬ touchesItem "b" "1" (SyncAction.copyItem "b" "2" "3" true) :=
  c5_both_inactive_pairs_skipped
    [("b", [("1", { dttm := "2", active := false }), ("2", { dttm := "3", active := true })])]
    [("b", [("1", { dttm := "1", active := false })])]
    "b" "1"
    [("1", { dttm := "2", active := false }), ("2", { dttm := "3", active := true })]
    [("1", { dttm := "1", active := false })]
    { dttm := "2", active := false } { dttm := "1", active := false }
    (by decide) (by decide) rfl rfl rfl rfl rfl rfl
    (SyncAction.copyItem "b" "2" "3" true)
    (by decide)

/-- Claim C10: with include_id set, _get_content succeeds only on JSON
objects, and only when the query supplied an ID column -- in get_bin_items
and search_items a non-object stored value raises TypeError, while in
get_item and get_item_history, whose queries select no ID column, every
decoded value raises IndexError -- and with include_id unset the stored
value is returned unchanged.  The search row selection is abstracted over
the compiled criteria w. -/
theorem c10_include_id_requires_object (db : Db) (bin : String) :
    (∀ rid v, includeId db bin = false →
        get_content db bin rid (some v) = .ok v) ∧
    (∀ i v, includeId db bin = true → (∀ fs, v ≠ Jval.obj fs) →
        get_content db bin (some i) (some v) = .error .typeError) ∧
    (∀ v, includeId db bin = true →
        get_content db bin none (some v) = .error .indexError) ∧
    (∀ id r v, currentActiveRow db bin id = some r → r.content = some v →
        (includeId db bin = false → get_item db bin id = .ok (some v))
          ∧ (includeId db bin = true → get_item db bin id = .error .indexError)) ∧
    (∀ r v, r ∈ binRows db bin → r.content = some v → includeId db bin = true →
        (∀ fs, v ≠ Jval.obj fs) → ∃ e, get_bin_items db bin = .error e) ∧
    (∀ (w : Row → Bool) r v, r ∈ search_rows db bin w → r.content = some v →
        includeId db bin = true → (∀ fs, v ≠ Jval.obj fs) →
        ∃ e, search_items db bin w = .error e) ∧
    (∀ id r v, r ∈ db.rows → rowIsFor bin id r = true → r.content = some v →
        includeId db bin = true →
        ∃ e, get_item_history db bin id = .error e) := by
  have part1 : ∀ (rid : Option String) v, includeId db bin = false →
      get_content db bin rid (some v) = .ok v := by
    intro rid v hinc
    simp only [get_content]
    rw [hinc]
    simp
  have part2 : ∀ i v, includeId db bin = true → (∀ fs, v ≠ Jval.obj fs) →
      get_content db bin (some i) (some v) = .error .typeError := by
    intro i v hinc hne
    simp only [get_content]
    rw [hinc]
    cases v with
    | obj fs => exact absurd rfl (hne fs)
    | null => simp
    | bool b => simp
    | num n => simp
    | str s => simp
    | arr xs => simp
  have part3 : ∀ v, includeId db bin = true →
      get_content db bin none (some v) = .error .indexError := by
    intro v hinc
    simp only [get_content]
    rw [hinc]
    simp
  refine ⟨part1, part2, part3, ?_, ?_, ?_, ?_⟩
  · intro id r v hcur hc
    constructor
    · intro hinc
      rw [get_item, hcur]
      show Except.map some (get_content db bin none r.content) = Except.ok (some v)
      rw [hc, part1 none v hinc]
      rfl
    · intro hinc
      rw [get_item, hcur]
      show Except.map some (get_content db bin none r.content)
          = Except.error PyErr.indexError
      rw [hc, part3 v hinc]
      rfl
  · intro r v hr hc hinc hne
    obtain ⟨e2, h2⟩ := mapE_error_of_mem
      (f := fun r => (get_content db bin (some r.id) r.content).map (fun c => (r.id, c)))
      (l := binRows db bin) hr (e := PyErr.typeError)
      (by beta_reduce; rw [hc, part2 r.id v hinc hne]; rfl)
    exact ⟨e2, by rw [get_bin_items, h2]⟩
  · intro w r v hr hc hinc hne
    obtain ⟨e2, h2⟩ := mapE_error_of_mem
      (f := fun r => (get_content db bin (some r.id) r.content).map (fun c => (r.id, c)))
      (l := search_rows db bin w) hr (e := PyErr.typeError)
      (by beta_reduce; rw [hc, part2 r.id v hinc hne]; rfl)
    exact ⟨e2, by rw [search_items, h2]⟩
  · intro id r v hr hfor hc hinc
    have hmem : r ∈ sortByDttm (db.rows.filter (rowIsFor bin id)) :=
      mem_sortByDttm.mpr (List.mem_filter.mpr ⟨hr, hfor⟩)
    obtain ⟨e2, h2⟩ := mapE_error_of_mem
      (f := fun r => (get_content db bin none r.content).map (fun c =>
        ({ dttm := r.dttm, active := r.status == "A", content := c } : HistEntry)))
      (l := sortByDttm (db.rows.filter (rowIsFor bin id))) hmem
      (e := PyErr.indexError)
      (by beta_reduce; rw [hc, part3 v hinc]; rfl)
    exact ⟨e2, by rw [get_item_history, h2]⟩

/-- Witness for C10 at a concrete store: include_id on with a numeric
document stored; the get query selects no ID column, so get raises
IndexError. -/
theorem c10_include_id_requires_object_witness :
    get_item { rows := [{ bin := "b", id := "i", dttm := "1", status := "A", content := some (Jval.num 7) }],
               binConfig := [("b", true)], searchKeys := [], searchValues := [] } "b" "i"
      = Except.error PyErr.indexError :=
  ((c10_include_id_requires_object
      { rows := [{ bin := "b", id := "i", dttm := "1", status := "A", content := some (Jval.num 7) }],
        binConfig := [("b", true)], searchKeys := [], searchValues := [] } "b").2.2.2.1
    "i" { bin := "b", id := "i", dttm := "1", status := "A", content := some (Jval.num 7) }
    (Jval.num 7) rfl rfl).2 rfl

end Pakhuis
